import Mathlib

/-!
Shallow embedding of the per-device reset pipeline of `src/V6.py`.

Python strings are modelled as `List Char`; the Python string operations used
by the source (`strip`, `rstrip`, `split`, `splitlines`, `startswith`, the
`in` substring test) are modelled by executable functions below, faithful to
CPython semantics for the non-empty separators the source uses.
Remote (adb) commands are modelled as values of small command alphabets: each
embedded function returns the list of commands the Python function would
issue, in order.
-/

/-- Characters that Python's argument-less `str.strip()` removes. -/
def isPySpace (c : Char) : Bool :=
  c == Char.ofNat 32 || c == Char.ofNat 9 || c == Char.ofNat 10 ||
  c == Char.ofNat 13 || c == Char.ofNat 11 || c == Char.ofNat 12

/-- Model of Python `s.strip()`: drop leading and trailing whitespace. -/
def pyStrip (l : List Char) : List Char :=
  ((l.dropWhile isPySpace).reverse.dropWhile isPySpace).reverse

/-- Model of Python `s.rstrip(c)` for the right-brace character. -/
def pyRstripBrace (l : List Char) : List Char :=
  (l.reverse.dropWhile (fun c => c == Char.ofNat 125)).reverse

/-- Model of Python's substring test `needle in hay` (for any `needle`;
the source only uses non-empty needles). -/
def pyContains : List Char → List Char → Bool
  | [], needle => needle.isEmpty
  | c :: rest, needle => needle.isPrefixOf (c :: rest) || pyContains rest needle

/-- Fuelled worker for `pySplit`; with `fuel ≥ l.length` (and a non-empty
separator) it computes Python's `l.split(sep)`. -/
def pySplitFuel (sep : List Char) : Nat → List Char → List (List Char)
  | _, [] => [[]]
  | 0, c :: rest => [c :: rest]
  | fuel + 1, c :: rest =>
    if sep.isPrefixOf (c :: rest) && !sep.isEmpty then
      [] :: pySplitFuel sep fuel ((c :: rest).drop sep.length)
    else
      (c :: (pySplitFuel sep fuel rest).headD []) :: (pySplitFuel sep fuel rest).tail

/-- Model of Python `l.split(sep)` for a non-empty separator `sep`:
split on every non-overlapping occurrence, left to right. -/
def pySplit (sep l : List Char) : List (List Char) :=
  pySplitFuel sep l.length l

/-- Model of Python `s.splitlines()` for newline-separated text: like
splitting on the newline character, except that a trailing empty chunk
(from a terminating newline) is not produced. -/
def pySplitlines (l : List Char) : List (List Char) :=
  let parts := pySplit [Char.ofNat 10] l
  if parts.getLast? = some [] then parts.dropLast else parts

/-- One parsed device account: `{'name': ..., 'type': ...}` in the source. -/
structure Account where
  name : List Char
  type : List Char
deriving DecidableEq

/-- The atomic result of one remote command (`subprocess.run`):
exit status, captured stdout and stderr. -/
structure CommandResult where
  exitStatus : Int
  stdout : List Char
  stderr : List Char
deriving DecidableEq

/-- The parsing of one line of `dumpsys account` output, from the loop body
of `get_device_accounts` in `src/V6.py`:
strip the line; require it to start with `Account {` and to contain `type=`;
`type_part = line.split('type=')[1].rstrip('}').strip()` and
`name_part = line.split('name=')[1].split(',')[0].strip()`, where an
`IndexError` (a missing field) skips the line. -/
def parseAccountLine (raw : List Char) : Option Account :=
  let line := pyStrip raw
  if "Account \x7b".data.isPrefixOf line && pyContains line ("type=".data) then
    match (pySplit ("type=".data) line)[1]? with
    | none => none
    | some tseg =>
      match (pySplit ("name=".data) line)[1]? with
      | none => none
      | some nseg =>
        some ⟨pyStrip ((pySplit (",".data) nseg).headD []),
              pyStrip (pyRstripBrace tseg)⟩
  else none

/-- `get_device_accounts` of `src/V6.py`, as a function of the result of the
`dumpsys account` command: if the result has no stdout text, return `[]`;
otherwise parse each line, skipping the ones that do not match.
The exit status of the command is never consulted by the source. -/
def get_device_accounts (r : CommandResult) : List Account :=
  if r.stdout.isEmpty then []
  else (pySplitlines r.stdout).filterMap parseAccountLine

/-- `SAMSUNG_ACCOUNT_TYPES` of `src/V6.py`: the trusted-vendor prefixes. -/
def SAMSUNG_ACCOUNT_TYPES : List (List Char) :=
  ["com.osp.app.signin".data,
   "com.samsung.android.mobileservice".data,
   "com.samsung".data]

/-- `is_samsung_account` of `src/V6.py`: true iff the account type starts
with one of the trusted prefixes. -/
def is_samsung_account (accountType : List Char) : Bool :=
  SAMSUNG_ACCOUNT_TYPES.any (fun samsungType => samsungType.isPrefixOf accountType)

/-- The accounts that the classification loop of `remove_non_samsung_accounts`
logs as preserved (`is_samsung_account` holds). -/
def preservedAccounts (accounts : List Account) : List Account :=
  accounts.filter (fun a => is_samsung_account a.type)

/-- The accounts that the classification loop of `remove_non_samsung_accounts`
logs as deletion targets (`is_samsung_account` fails); the same filter is the
post-check's `non_samsung_remaining`. -/
def removalTargets (accounts : List Account) : List Account :=
  accounts.filter (fun a => !is_samsung_account a.type)

/-- The distinct account types among the removal targets. -/
def removedAccountTypes (accounts : List Account) : List (List Char) :=
  ((removalTargets accounts).map (fun a => a.type)).dedup

/-- The `google_apps` table of `clear_google_apps_history` in `src/V6.py`:
the fixed package identifiers whose data the stage clears, in dict order. -/
def google_apps : List (List Char) :=
  ["com.google.android.googlequicksearchbox".data,
   "com.android.chrome".data,
   "com.google.android.youtube".data,
   "com.google.android.gm".data,
   "com.google.android.apps.maps".data,
   "com.google.android.apps.docs".data,
   "com.google.android.calendar".data,
   "com.google.android.apps.photos".data]

/-- The packages whose data `clear_google_apps_history` clears (one
`pm clear` per table entry, in order, independent of any account state). -/
def clear_google_apps_history_targets : List (List Char) :=
  google_apps

/-- Command alphabet of the locale-configuration stage. The source
(`set_device_language` in `src/V6.py`) only ever issues the first two
commands; the remaining constructors name the mechanisms that the
specification's fallback chain describes, so that their absence from the
issued trace can be stated. -/
inductive LocaleCmd
  | pushDex
  | appProcessLocaleChanger (locale : List Char)
  | settingsPutLocale (locale : List Char)
  | setpropLocale (locale : List Char)
  | broadcastLocaleChanged
  | restartSystemUi
deriving DecidableEq

/-- `push_dex_if_needed` of `src/V6.py`: if the local dex file is absent,
issue no command and report failure; otherwise issue the push and report
success. Returns (commands issued, returned boolean). -/
def push_dex_if_needed (dexPresent : Bool) : List LocaleCmd × Bool :=
  if dexPresent then ([LocaleCmd.pushDex], true) else ([], false)

/-- `set_device_language` of `src/V6.py`, as the list of remote commands it
issues: a falsy (absent or empty) locale returns immediately; a missing
`locale_changer.dex` logs an error and returns after the (command-free)
push attempt; otherwise the dex push is followed by one `app_process`
invocation of `LocaleChanger` with the locale. -/
def set_device_language (locale : Option (List Char)) (dexPresent : Bool) :
    List LocaleCmd :=
  match locale with
  | none => []
  | some loc =>
    if loc.isEmpty then []
    else
      let pushed := push_dex_if_needed dexPresent
      if pushed.2 then pushed.1 ++ [LocaleCmd.appProcessLocaleChanger loc]
      else pushed.1

/-- The stages of `process_device` in `src/V6.py`, one constructor per
top-level call, in source order. -/
inductive StageName
  | detectSeries
  | setLanguage
  | removeAccounts
  | clearGoogleHistory
  | deleteUserApps
  | wipeStorage
  | clearLogsCache
  | deepCleanTrash
  | clearMediaStore
  | thumbnailCleanup
  | pushWallpaper
  | triggerTasker
  | ensureEssentialApps
deriving DecidableEq

/-- The fixed stage order of `process_device` in `src/V6.py`. -/
def pipelineStages : List StageName :=
  [StageName.detectSeries, StageName.setLanguage, StageName.removeAccounts,
   StageName.clearGoogleHistory, StageName.deleteUserApps, StageName.wipeStorage,
   StageName.clearLogsCache, StageName.deepCleanTrash, StageName.clearMediaStore,
   StageName.thumbnailCleanup, StageName.pushWallpaper, StageName.triggerTasker,
   StageName.ensureEssentialApps]

/-- Sequential execution of a stage list with Python exception semantics as
in `process_device` of `src/V6.py`: the body contains no try/except, so the
first stage whose body raises stops the run there. `fault s = true` means
stage `s` raises an unexpected fault when it runs. Returns the stages that
were started, and whether an uncaught exception escaped. -/
def runStages (fault : StageName → Bool) : List StageName → List StageName × Bool
  | [] => ([], false)
  | s :: rest =>
    if fault s then ([s], true)
    else (s :: (runStages fault rest).1, (runStages fault rest).2)

/-- `process_device` of `src/V6.py`, abstracted over which stage bodies
fault: the fixed stage sequence run with uncaught-exception semantics. -/
def process_device (fault : StageName → Bool) : List StageName × Bool :=
  runStages fault pipelineStages

/-- One entry of the `apps` table of `ensure_essential_apps_installed`:
the required package identifier, and whether its bundled apk file exists. -/
structure EssentialApp where
  package : List Char
  apkPresent : Bool
deriving DecidableEq

/-- What `ensure_essential_apps_installed` does for one required app. -/
inductive AppAction
  | alreadyInstalled
  | install
  | apkMissing
deriving DecidableEq

/-- The package identifiers of the `apps` table of
`ensure_essential_apps_installed` in `src/V6.py`. -/
def essentialPackages : List (List Char) :=
  ["com.nhn.android.nmap".data,
   "dji.mimo".data,
   "com.alphainventor.filemanager".data,
   "net.dinglisch.android.taskerm".data]

/-- The per-app decision of `ensure_essential_apps_installed` in
`src/V6.py`: the app counts as installed iff the text `package:<id>` occurs
as a substring anywhere in the full `pm list packages` output; otherwise
install from the bundled apk if it exists, else only warn. -/
def essentialAppAction (output : List Char) (a : EssentialApp) : AppAction :=
  if pyContains output ("package:".data ++ a.package) then AppAction.alreadyInstalled
  else if a.apkPresent then AppAction.install
  else AppAction.apkMissing

/-- `ensure_essential_apps_installed` of `src/V6.py`: the decision taken for
each required app, against one fixed package-listing output. -/
def ensure_essential_apps_installed (output : List Char)
    (apps : List EssentialApp) : List (EssentialApp × AppAction) :=
  apps.map (fun a => (a, essentialAppAction output a))

/-- The text that `adb shell pm list packages` produces for a device whose
installed packages are `installed`: one `package:<id>` line per package,
each line terminated by a newline. -/
def pmListing : List (List Char) → List Char
  | [] => []
  | q :: rest => "package:".data ++ q ++ Char.ofNat 10 :: pmListing rest

/-- The registry dump of the end-to-end scenario of the specification: one
`com.osp.app.signin` account and one `com.google` account, in the
`dumpsys account` line format that `get_device_accounts` parses. -/
def scenarioDump : List Char :=
  ("Account \x7bname=user@samsung.com, type=com.osp.app.signin\x7d\n" ++
   "Account \x7bname=user@gmail.com, type=com.google\x7d").data

/-- The scenario's registry-dump command result (successful query). -/
def scenarioResult : CommandResult :=
  ⟨0, scenarioDump, []⟩

/-- A registry-dump command result with a non-zero exit status that still
carries one well-formed account line on stdout. -/
def failedQueryResult : CommandResult :=
  ⟨1, "Account \x7bname=u, type=com.google\x7d".data, []⟩

/-- A fault assignment in which exactly the app-removal stage
(`delete_user_installed_apps`) raises an unexpected fault. -/
def faultOnDeleteApps : StageName → Bool :=
  fun s => decide (s = StageName.deleteUserApps)

/-- The locale of the first menu option, `ja-JP`. -/
def jaLocale : List Char :=
  "ja-JP".data

/-- A sample trusted account whose type is a strict extension of the
`com.samsung.android.mobileservice` prefix. -/
def sampleSamsungAccount : Account :=
  ⟨"owner".data, "com.samsung.android.mobileservice.extra".data⟩

/-- A required-app entry for the Naver map package with its apk bundled. -/
def nmapApp : EssentialApp :=
  ⟨"com.nhn.android.nmap".data, true⟩

/-- A malformed registry-dump line: it has a `type=` field but no `name=`
field. -/
def malformedLine : List Char :=
  "Account \x7btype=com.google\x7d".data

/-- Python `l₁.isPrefixOf l₂` decides existence of a completing suffix. -/
theorem isPrefixOf_eq_true_iff (l₁ l₂ : List Char) :
    l₁.isPrefixOf l₂ = true ↔ ∃ t, l₁ ++ t = l₂ := by
  induction l₁ generalizing l₂ with
  | nil => simp [List.isPrefixOf]
  | cons a as ih =>
    cases l₂ with
    | nil => simp [List.isPrefixOf]
    | cons b bs =>
      simp only [List.isPrefixOf, Bool.and_eq_true, beq_iff_eq, List.cons_append]
      constructor
      · rintro ⟨rfl, h⟩
        obtain ⟨t, rfl⟩ := (ih bs).1 h
        exact ⟨t, rfl⟩
      · rintro ⟨t, h⟩
        injection h with h1 h2
        exact ⟨h1, (ih bs).2 ⟨t, h2⟩⟩

/-- The substring test `pyContains` decides existence of an occurrence. -/
theorem pyContains_eq_true_iff (hay needle : List Char) :
    pyContains hay needle = true ↔ ∃ s t, s ++ needle ++ t = hay := by
  induction hay with
  | nil =>
    simp only [pyContains]
    constructor
    · intro h
      have hn : needle = [] := by
        cases needle with
        | nil => rfl
        | cons x xs => simp [List.isEmpty] at h
      exact ⟨[], [], by simp [hn]⟩
    · rintro ⟨s, t, h⟩
      have hn : needle = [] := by
        rcases List.append_eq_nil.mp h with ⟨hsn, ht⟩
        exact (List.append_eq_nil.mp hsn).2
      simp [hn, List.isEmpty]
  | cons c rest ih =>
    simp only [pyContains, Bool.or_eq_true]
    constructor
    · rintro (hp | hr)
      · obtain ⟨t, ht⟩ := (isPrefixOf_eq_true_iff needle (c :: rest)).1 hp
        exact ⟨[], t, by simpa using ht⟩
      · obtain ⟨s, t, h⟩ := ih.1 hr
        exact ⟨c :: s, t, by simp [h]⟩
    · rintro ⟨s, t, h⟩
      cases s with
      | nil =>
        exact Or.inl ((isPrefixOf_eq_true_iff needle (c :: rest)).2 ⟨t, by simpa using h⟩)
      | cons a s2 =>
        rw [List.cons_append] at h
        injection h with hac hrest
        exact Or.inr (ih.2 ⟨s2, t, hrest⟩)

/-- Dropping a leading run of characters leaves a suffix of the list. -/
theorem dropWhile_suffix_decomp (p : Char → Bool) (l : List Char) :
    ∃ s, s ++ l.dropWhile p = l := by
  induction l with
  | nil => exact ⟨[], rfl⟩
  | cons c rest ih =>
    cases hc : p c
    · exact ⟨[], by simp [List.dropWhile_cons, hc]⟩
    · obtain ⟨s, hs⟩ := ih
      exact ⟨c :: s, by simp [List.dropWhile_cons, hc, hs]⟩

/-- A stripped string occurs inside the original string. -/
theorem pyStrip_decomp (l : List Char) : ∃ s t, s ++ pyStrip l ++ t = l := by
  obtain ⟨s1, h1⟩ := dropWhile_suffix_decomp isPySpace l
  obtain ⟨s2, h2⟩ := dropWhile_suffix_decomp isPySpace (l.dropWhile isPySpace).reverse
  refine ⟨s1, s2.reverse, ?_⟩
  have h3 : pyStrip l ++ s2.reverse = l.dropWhile isPySpace := by
    have h4 := congrArg List.reverse h2
    simpa [pyStrip, List.reverse_append] using h4
  rw [List.append_assoc, h3, h1]

/-- An occurrence inside the stripped string is an occurrence in the
original string. -/
theorem pyContains_of_pyStrip (l needle : List Char)
    (h : pyContains (pyStrip l) needle = true) : pyContains l needle = true := by
  obtain ⟨a, b, hab⟩ := (pyContains_eq_true_iff (pyStrip l) needle).1 h
  obtain ⟨s, t, hst⟩ := pyStrip_decomp l
  refine (pyContains_eq_true_iff l needle).2 ⟨s ++ a, b ++ t, ?_⟩
  rw [← hst, ← hab]
  simp [List.append_assoc]

/-- A needle absent from a string is absent from its stripped form. -/
theorem pyContains_false_pyStrip (l needle : List Char)
    (h : pyContains l needle = false) : pyContains (pyStrip l) needle = false := by
  cases h2 : pyContains (pyStrip l) needle
  · rfl
  · have h3 := pyContains_of_pyStrip l needle h2
    rw [h] at h3
    cases h3

/-- With enough fuel, splitting on a separator that does not occur returns
the whole string as the single chunk. -/
theorem pySplitFuel_eq_of_not_contains (sep : List Char) :
    ∀ (fuel : Nat) (l : List Char), l.length ≤ fuel →
      pyContains l sep = false → pySplitFuel sep fuel l = [l] := by
  intro fuel
  induction fuel with
  | zero =>
    intro l hlen _
    cases l with
    | nil => rfl
    | cons c rest => simp at hlen
  | succ f ih =>
    intro l hlen hc
    cases l with
    | nil => rfl
    | cons c rest =>
      have hcu : (sep.isPrefixOf (c :: rest) || pyContains rest sep) = false := hc
      have hp : sep.isPrefixOf (c :: rest) = false := by
        cases hq : sep.isPrefixOf (c :: rest)
        · rfl
        · rw [hq] at hcu
          simp at hcu
      have hr : pyContains rest sep = false := by
        rw [hp] at hcu
        simpa using hcu
      have hlen2 : rest.length ≤ f := by
        simp [List.length_cons] at hlen
        omega
      have hrec : pySplitFuel sep f rest = [rest] := ih rest hlen2 hr
      simp [pySplitFuel, hp, hrec]

/-- Splitting on a separator that does not occur in the string returns the
whole string as the single chunk (so index `[1]` does not exist). -/
theorem pySplit_eq_of_not_contains (sep l : List Char)
    (h : pyContains l sep = false) : pySplit sep l = [l] :=
  pySplitFuel_eq_of_not_contains sep l.length l (Nat.le_refl _) h

/-- Every installed package's `package:<id>` line occurs inside the
package-listing text. -/
theorem occurs_pmListing (installed : List (List Char)) (q : List Char)
    (hq : q ∈ installed) :
    ∃ s t, s ++ ("package:".data ++ q) ++ t = pmListing installed := by
  induction installed with
  | nil => cases hq
  | cons a rest ih =>
    rcases List.mem_cons.mp hq with rfl | hmem
    · exact ⟨[], Char.ofNat 10 :: pmListing rest, by simp [pmListing]⟩
    · obtain ⟨s, t, h⟩ := ih hmem
      refine ⟨"package:".data ++ a ++ Char.ofNat 10 :: s, t, ?_⟩
      simp only [pmListing]
      rw [← h]
      simp [List.append_assoc, List.cons_append]

/-- If some stage of the list faults, the uncaught exception escapes the
stage runner. -/
theorem runStages_escaped_of_fault (fault : StageName → Bool) :
    ∀ (stages : List StageName) (s : StageName), s ∈ stages → fault s = true →
      (runStages fault stages).2 = true := by
  intro stages
  induction stages with
  | nil => intro s hs _; cases hs
  | cons a rest ih =>
    intro s hs hf
    cases hfa : fault a
    · rcases List.mem_cons.mp hs with rfl | hmem
      · rw [hfa] at hf
        cases hf
      · simp only [runStages, hfa, Bool.false_eq_true, if_false]
        exact ih s hmem hf
    · simp [runStages, hfa]

/-- When stage `s` faults, every stage that the runner starts on the list
`pre ++ s :: post` lies in `pre` or is `s` itself: nothing after the
faulting stage runs. -/
theorem runStages_mem_of_started (fault : StageName → Bool) :
    ∀ (pre post : List StageName) (s t : StageName),
      fault s = true → t ∈ (runStages fault (pre ++ s :: post)).1 →
      t ∈ pre ∨ t = s := by
  intro pre
  induction pre with
  | nil =>
    intro post s t hf hmem
    simp [runStages, hf] at hmem
    exact Or.inr hmem
  | cons p pre ih =>
    intro post s t hf hmem
    rw [List.cons_append] at hmem
    cases hfp : fault p
    · simp only [runStages, hfp, Bool.false_eq_true, if_false] at hmem
      rcases List.mem_cons.mp hmem with rfl | hmem2
      · exact Or.inl (List.mem_cons_self _ _)
      · rcases ih post s t hf hmem2 with h1 | h2
        · exact Or.inl (List.mem_cons_of_mem _ h1)
        · exact Or.inr h2
    · simp [runStages, hfp] at hmem
      subst hmem
      exact Or.inl (List.mem_cons_self _ _)

/-- Claim C1, counterexample: with a fault in the app-removal stage
(`delete_user_installed_apps`, whose `subprocess.check_output` raises on a
non-zero exit), the exception escapes `process_device` uncaught and the
storage wipe does not run — contradicting the claim that the fault is
caught at the stage boundary and every later stage still runs. -/
theorem C1_counterexample :
    (process_device faultOnDeleteApps).2 = true ∧
      StageName.wipeStorage ∉ (process_device faultOnDeleteApps).1 := by
  decide

/-- Claim C1, amended: `process_device` wraps no stage in a handler, so an
unexpected fault raised inside a stage is NOT caught at the stage boundary:
no Failed outcome is recorded (the code records no stage outcomes at all),
the exception escapes the device pipeline, and no stage after the faulting
one runs — in particular a fault in app removal prevents the storage wipe. -/
theorem C1_theorem (fault : StageName → Bool)
    (h : fault StageName.deleteUserApps = true) :
    (process_device fault).2 = true ∧
      StageName.wipeStorage ∉ (process_device fault).1 := by
  constructor
  · exact runStages_escaped_of_fault fault pipelineStages
      StageName.deleteUserApps (by decide) h
  · intro hmem
    have hsplit : pipelineStages =
        [StageName.detectSeries, StageName.setLanguage, StageName.removeAccounts,
         StageName.clearGoogleHistory] ++ StageName.deleteUserApps ::
        [StageName.wipeStorage, StageName.clearLogsCache, StageName.deepCleanTrash,
         StageName.clearMediaStore, StageName.thumbnailCleanup,
         StageName.pushWallpaper, StageName.triggerTasker,
         StageName.ensureEssentialApps] := rfl
    rw [process_device, hsplit] at hmem
    rcases runStages_mem_of_started fault _ _ _ _ h hmem with hin | heq
    · exact absurd hin (by decide)
    · exact absurd heq (by decide)

/-- Claim C1, witness: the amended theorem applied to the fault assignment
that makes exactly the app-removal stage raise. -/
theorem C1_witness :
    faultOnDeleteApps StageName.deleteUserApps = true ∧
      ((process_device faultOnDeleteApps).2 = true ∧
        StageName.wipeStorage ∉ (process_device faultOnDeleteApps).1) :=
  ⟨by decide, C1_theorem faultOnDeleteApps (by decide)⟩

/-- Claim C2, counterexample: with a non-null locale and the helper payload
present, `set_device_language` issues exactly the payload push and one
`app_process` locale-set command; no settings-store fallback write, no
locale-changed broadcast and no system-UI restart is ever issued —
contradicting the claimed five-mechanism chain. -/
theorem C2_counterexample :
    set_device_language (some jaLocale) true =
      [LocaleCmd.pushDex, LocaleCmd.appProcessLocaleChanger jaLocale] ∧
      LocaleCmd.settingsPutLocale jaLocale ∉ set_device_language (some jaLocale) true ∧
      LocaleCmd.setpropLocale jaLocale ∉ set_device_language (some jaLocale) true ∧
      LocaleCmd.broadcastLocaleChanged ∉ set_device_language (some jaLocale) true ∧
      LocaleCmd.restartSystemUi ∉ set_device_language (some jaLocale) true := by
  decide

/-- Claim C2, amended: for every non-empty locale, when the helper payload
is present the locale stage issues exactly two commands in order — the
payload push and a single primary locale-set invocation; it issues no
settings-store fallback write, no low-level property write, no
locale-changed broadcast, and no system-UI restart. -/
theorem C2_theorem (loc : List Char) (h : loc ≠ []) :
    set_device_language (some loc) true =
      [LocaleCmd.pushDex, LocaleCmd.appProcessLocaleChanger loc] := by
  have h2 : loc.isEmpty = false := by
    cases loc with
    | nil => exact absurd rfl h
    | cons c rest => rfl
  simp [set_device_language, push_dex_if_needed, h2]

/-- Claim C2, witness: the amended theorem applied to the `ja-JP` locale. -/
theorem C2_witness :
    jaLocale ≠ [] ∧
      set_device_language (some jaLocale) true =
        [LocaleCmd.pushDex, LocaleCmd.appProcessLocaleChanger jaLocale] :=
  ⟨by decide, C2_theorem jaLocale (by decide)⟩

/-- Claim C3, counterexample: none of the three identifiers the claim says
are cleared (`com.google.android.gms`, `com.google.android.gsf`,
`com.google.android.gsf.login`) is ever a data-clear target of
`clear_google_apps_history` — the stage's table is a different, fixed list. -/
theorem C3_counterexample :
    "com.google.android.gms".data ∉ clear_google_apps_history_targets ∧
      "com.google.android.gsf".data ∉ clear_google_apps_history_targets ∧
      "com.google.android.gsf.login".data ∉ clear_google_apps_history_targets := by
  decide

/-- Claim C3, amended: in the end-to-end scenario (registry dump with one
`com.osp.app.signin` account and one `com.google` account) classification
yields exactly 1 preserved and 1 removed account with removed-type set
`{com.google}`; but the history stage clears the data of the fixed eight
Google application identifiers of its table, each exactly once per run,
independent of the account classification. -/
theorem C3_theorem :
    (preservedAccounts (get_device_accounts scenarioResult)).length = 1 ∧
      (removalTargets (get_device_accounts scenarioResult)).length = 1 ∧
      removedAccountTypes (get_device_accounts scenarioResult) =
        ["com.google".data] ∧
      clear_google_apps_history_targets =
        ["com.google.android.googlequicksearchbox".data,
         "com.android.chrome".data,
         "com.google.android.youtube".data,
         "com.google.android.gm".data,
         "com.google.android.apps.maps".data,
         "com.google.android.apps.docs".data,
         "com.google.android.calendar".data,
         "com.google.android.apps.photos".data] ∧
      clear_google_apps_history_targets.Nodup := by
  decide

/-- Claim C4 (confirmed): every account whose type starts with one of the
trusted-vendor prefixes is placed among the preserved accounts, never among
the removal targets, and its type is never a data-clear target of the
history stage. -/
theorem C4_theorem (accounts : List Account) (a : Account)
    (h : is_samsung_account a.type = true) :
    (a ∈ preservedAccounts accounts ↔ a ∈ accounts) ∧
      a ∉ removalTargets accounts ∧
      a.type ∉ clear_google_apps_history_targets := by
  refine ⟨?_, ?_, ?_⟩
  · simp [preservedAccounts, List.mem_filter, h]
  · simp [removalTargets, List.mem_filter, h]
  · intro hmem
    have hall : ∀ t ∈ clear_google_apps_history_targets,
        is_samsung_account t = false := by decide
    rw [hall a.type hmem] at h
    cases h

/-- Claim C4, witness: the theorem applied to an account whose type is a
strict extension of a trusted prefix. -/
theorem C4_witness :
    is_samsung_account sampleSamsungAccount.type = true ∧
      ((sampleSamsungAccount ∈ preservedAccounts [sampleSamsungAccount] ↔
          sampleSamsungAccount ∈ [sampleSamsungAccount]) ∧
        sampleSamsungAccount ∉ removalTargets [sampleSamsungAccount] ∧
        sampleSamsungAccount.type ∉ clear_google_apps_history_targets) :=
  ⟨by decide, C4_theorem [sampleSamsungAccount] sampleSamsungAccount (by decide)⟩

/-- Claim C5, counterexample: a registry-dump result with a non-zero exit
status but non-empty output is parsed normally — the account inventory does
not return an empty classification on a non-zero exit status. -/
theorem C5_counterexample :
    failedQueryResult.exitStatus = 1 ∧
      get_device_accounts failedQueryResult =
        [⟨"u".data, "com.google".data⟩] := by
  decide

/-- Claim C5, amended: the account inventory returns an empty classification
when the dump command returns no output (never an error), and its result
depends only on the command's stdout — the exit status is never consulted,
so a failed query with output is parsed exactly like a successful one. -/
theorem C5_theorem :
    (∀ (e : Int) (err : List Char), get_device_accounts ⟨e, [], err⟩ = []) ∧
      (∀ (e₁ e₂ : Int) (out err₁ err₂ : List Char),
        get_device_accounts ⟨e₁, out, err₁⟩ = get_device_accounts ⟨e₂, out, err₂⟩) :=
  ⟨fun _ _ => rfl, fun _ _ _ _ _ => rfl⟩

/-- Claim C6 (confirmed): a registry-dump line missing the `name=` field or
the `type=` field is skipped: the parser (a total function — it cannot
raise) returns no record for it, and the parsed-account list of a dump
containing the line equals that of the dump without it. -/
theorem C6_theorem (raw : List Char)
    (h : pyContains raw ("name=".data) = false ∨
      pyContains raw ("type=".data) = false) :
    parseAccountLine raw = none ∧
      ∀ pre post : List (List Char),
        (pre ++ raw :: post).filterMap parseAccountLine =
          (pre ++ post).filterMap parseAccountLine := by
  have hnone : parseAccountLine raw = none := by
    rcases h with hn | ht
    · have hs : pyContains (pyStrip raw) ("name=".data) = false :=
        pyContains_false_pyStrip raw _ hn
      have hsplit : pySplit ("name=".data) (pyStrip raw) = [pyStrip raw] :=
        pySplit_eq_of_not_contains _ _ hs
      unfold parseAccountLine
      cases hT : (pySplit ("type=".data) (pyStrip raw))[1]? <;>
        simp [hsplit, hT]
    · have hs : pyContains (pyStrip raw) ("type=".data) = false :=
        pyContains_false_pyStrip raw _ ht
      unfold parseAccountLine
      simp [hs]
  refine ⟨hnone, fun pre post => ?_⟩
  simp [List.filterMap_append, List.filterMap_cons, hnone]

/-- Claim C6, witness: the theorem applied to a line with a `type=` field
but no `name=` field. -/
theorem C6_witness :
    (pyContains malformedLine ("name=".data) = false ∨
      pyContains malformedLine ("type=".data) = false) ∧
      parseAccountLine malformedLine = none :=
  ⟨Or.inl (by decide),
    (C6_theorem malformedLine (Or.inl (by decide))).1⟩

/-- Claim C7 (confirmed): invoking the locale stage with a null locale
issues zero remote commands and returns immediately. -/
theorem C7_theorem (dexPresent : Bool) :
    set_device_language none dexPresent = [] := rfl

/-- Claim C9 (confirmed): with a non-null locale but the
`locale_changer.dex` helper payload absent from the local resource path, the
locale stage logs an error and issues zero remote commands — the device's
locale configuration is left untouched. -/
theorem C9_theorem (loc : List Char) :
    set_device_language (some loc) false = [] := by
  cases loc <;> rfl

/-- Claim C10 (confirmed): the essential-app provisioning stage decides
installedness by substring search of `package:<id>` in the full package
listing, so a required app whose identifier is a proper prefix of some
installed package's identifier is treated as already installed — no
installation is attempted even though the app itself is absent. -/
theorem C10_theorem (installed : List (List Char)) (q : List Char)
    (a : EssentialApp)
    (hreq : a.package ∈ essentialPackages)
    (hq : q ∈ installed)
    (hpre : a.package.isPrefixOf q = true)
    (hne : a.package ≠ q)
    (habs : a.package ∉ installed) :
    essentialAppAction (pmListing installed) a = AppAction.alreadyInstalled := by
  obtain ⟨u, hu⟩ := (isPrefixOf_eq_true_iff a.package q).1 hpre
  obtain ⟨s, t, hst⟩ := occurs_pmListing installed q hq
  have hocc : pyContains (pmListing installed) ("package:".data ++ a.package) = true := by
    refine (pyContains_eq_true_iff _ _).2 ⟨s, u ++ t, ?_⟩
    rw [← hst, ← hu]
    simp [List.append_assoc]
  unfold essentialAppAction
  rw [hocc]
  simp

/-- Claim C10, witness: the required Naver-map package
`com.nhn.android.nmap` against a device whose only installed package is
`com.nhn.android.nmap.pro`. -/
theorem C10_witness :
    (nmapApp.package ∈ essentialPackages ∧
      "com.nhn.android.nmap.pro".data ∈ ["com.nhn.android.nmap.pro".data] ∧
      nmapApp.package.isPrefixOf ("com.nhn.android.nmap.pro".data) = true ∧
      nmapApp.package ≠ "com.nhn.android.nmap.pro".data ∧
      nmapApp.package ∉ ["com.nhn.android.nmap.pro".data]) ∧
      essentialAppAction (pmListing ["com.nhn.android.nmap.pro".data]) nmapApp =
        AppAction.alreadyInstalled :=
  ⟨⟨by decide, by decide, by decide, by decide, by decide⟩,
    C10_theorem ["com.nhn.android.nmap.pro".data]
      ("com.nhn.android.nmap.pro".data) nmapApp
      (by decide) (by decide) (by decide) (by decide) (by decide)⟩
